import Mathlib

/-!
Verification development for the `blender-fbx-plus` repository.

The development shallowly embeds the two logic units of the repository:

* `src/bake_transform.py` — the rotation bake/unbake transform and its batch
  variants.  The host scene is modelled as an explicit `Scene` state (objects
  with name, type, Euler rotation and selection flag, plus the active object),
  and the `bpy.ops` calls that mutate selection and rotation are modelled as
  pure state transformers.  Euler angles are exact rationals (`ℚ`) standing in
  for the source's IEEE-754 doubles; `BAKE_ROTATION_X` is the exact value of
  the double `math.radians(90)`.  Host failures of the geometric re-basing ops
  (`bpy.ops.transform.rotate` / `transform_apply`) are modelled by a per-scene
  oracle `failing` listing the object names on which those ops raise.
* `src/anim_utils.py` — the animation-clip compatibility classifier.  Property
  trees are modelled by the set (list) of path strings that `path_resolve`
  resolves; a resolution failure (the `ValueError` the source catches) is a
  `false` of the resolver.  The Blender 4.4 layers/strips/channelbag chain of
  `get_fcurves_for_slot` is modelled by an `Option (List FCurve)` per slot,
  `none` standing for a lookup that raises or returns nothing.
-/

/-! ## bake_transform.py — constants and rotation arithmetic -/

/-- Euler rotation triple (x, y, z), in radians, with exact rational
arithmetic in place of the source's floats. -/
abbrev Euler := ℚ × ℚ × ℚ

/-- Constant `BAKE_ROTATION_X = math.radians(90)`: the IEEE-754 double closest
to π/2, as an exact rational (`884279719003555 · 2⁻⁴⁹`). -/
def BAKE_ROTATION_X : ℚ := 884279719003555 / 562949953421312

/-- Constant `BAKE_TOLERANCE = 1e-6`, the epsilon used for snapping
near-zero Euler components. -/
def BAKE_TOLERANCE : ℚ := 1 / 1000000

/-- Body of the cleanup loop `if abs(r[i]) < BAKE_TOLERANCE: r[i] = 0.0`
applied to each Euler component. -/
def snapZero (x : ℚ) : ℚ := if |x| < BAKE_TOLERANCE then 0 else x

/-- Cleanup loop of `apply_bake_transform` / `revert_bake_transform`:
snap every near-zero component of the triple to exactly zero. -/
def snapEuler (r : Euler) : Euler := (snapZero r.1, snapZero r.2.1, snapZero r.2.2)

/-- Rotation written back by `apply_bake_transform` (steps 4–5): the original
rotation plus 90° on X, epsilon-snapped. -/
def bakeRotation (r : Euler) : Euler :=
  snapEuler (r.1 + BAKE_ROTATION_X, r.2.1, r.2.2)

/-- Rotation computed by `revert_bake_transform` (step 1): the current
rotation minus 90° on X, epsilon-snapped, then written back at step 5. -/
def revertRotation (r : Euler) : Euler :=
  snapEuler (r.1 - BAKE_ROTATION_X, r.2.1, r.2.2)

theorem BAKE_TOLERANCE_pos : (0 : ℚ) < BAKE_TOLERANCE := by norm_num [BAKE_TOLERANCE]

theorem BAKE_TOLERANCE_le_rot : BAKE_TOLERANCE ≤ BAKE_ROTATION_X := by
  norm_num [BAKE_TOLERANCE, BAKE_ROTATION_X]

theorem snapZero_of_lt {x : ℚ} (h : |x| < BAKE_TOLERANCE) : snapZero x = 0 :=
  if_pos h

theorem snapZero_of_ge {x : ℚ} (h : BAKE_TOLERANCE ≤ |x|) : snapZero x = x :=
  if_neg (not_lt.2 h)

theorem snapZero_zero_or_ge (x : ℚ) :
    snapZero x = 0 ∨ BAKE_TOLERANCE ≤ |snapZero x| := by
  by_cases h : |x| < BAKE_TOLERANCE
  · exact Or.inl (snapZero_of_lt h)
  · right
    rw [snapZero_of_ge (not_lt.1 h)]
    exact not_lt.1 h

theorem snapZero_snapZero_close (y : ℚ) :
    |snapZero (snapZero y) - y| < BAKE_TOLERANCE := by
  by_cases h : |y| < BAKE_TOLERANCE
  · rw [snapZero_of_lt h, snapZero_of_lt (by simpa using BAKE_TOLERANCE_pos)]
    simpa using h
  · rw [snapZero_of_ge (not_lt.1 h), snapZero_of_ge (not_lt.1 h)]
    simpa using BAKE_TOLERANCE_pos

theorem snapZero_roundtrip_close (x : ℚ) :
    |snapZero (snapZero (x + BAKE_ROTATION_X) - BAKE_ROTATION_X) - x| < BAKE_TOLERANCE := by
  by_cases h : |x + BAKE_ROTATION_X| < BAKE_TOLERANCE
  · rw [snapZero_of_lt h]
    have habs : |(0 : ℚ) - BAKE_ROTATION_X| = BAKE_ROTATION_X := by
      rw [zero_sub, abs_neg,
        abs_of_nonneg (le_trans (le_of_lt BAKE_TOLERANCE_pos) BAKE_TOLERANCE_le_rot)]
    rw [snapZero_of_ge (by rw [habs]; exact BAKE_TOLERANCE_le_rot)]
    have : |(0 : ℚ) - BAKE_ROTATION_X - x| = |x + BAKE_ROTATION_X| := by
      rw [show (0 : ℚ) - BAKE_ROTATION_X - x = -(x + BAKE_ROTATION_X) by ring, abs_neg]
    rw [this]
    exact h
  · rw [snapZero_of_ge (not_lt.1 h), add_sub_cancel_right]
    by_cases h2 : |x| < BAKE_TOLERANCE
    · rw [snapZero_of_lt h2]
      simpa [abs_sub_comm] using h2
    · rw [snapZero_of_ge (not_lt.1 h2)]
      simpa using BAKE_TOLERANCE_pos

/-- Claim C1: for every starting rotation `r`, applying `bake` and then
`unbake` reproduces `r` to within `1e-6` radians per component, and every
component written back by either operation is exactly `0` whenever its
magnitude is below `1e-6` (stated classically: each written component either
is `0` or has magnitude at least the tolerance). -/
theorem c1_bake_unbake_roundtrip (r : Euler) :
    (|(revertRotation (bakeRotation r)).1 - r.1| < BAKE_TOLERANCE
      ∧ |(revertRotation (bakeRotation r)).2.1 - r.2.1| < BAKE_TOLERANCE
      ∧ |(revertRotation (bakeRotation r)).2.2 - r.2.2| < BAKE_TOLERANCE)
    ∧ ((bakeRotation r).1 = 0 ∨ BAKE_TOLERANCE ≤ |(bakeRotation r).1|)
    ∧ ((bakeRotation r).2.1 = 0 ∨ BAKE_TOLERANCE ≤ |(bakeRotation r).2.1|)
    ∧ ((bakeRotation r).2.2 = 0 ∨ BAKE_TOLERANCE ≤ |(bakeRotation r).2.2|)
    ∧ ((revertRotation r).1 = 0 ∨ BAKE_TOLERANCE ≤ |(revertRotation r).1|)
    ∧ ((revertRotation r).2.1 = 0 ∨ BAKE_TOLERANCE ≤ |(revertRotation r).2.1|)
    ∧ ((revertRotation r).2.2 = 0 ∨ BAKE_TOLERANCE ≤ |(revertRotation r).2.2|) := by
  refine ⟨⟨?_, ?_, ?_⟩, ?_, ?_, ?_, ?_, ?_, ?_⟩
  · simpa [bakeRotation, revertRotation, snapEuler] using snapZero_roundtrip_close r.1
  · simpa [bakeRotation, revertRotation, snapEuler] using snapZero_snapZero_close r.2.1
  · simpa [bakeRotation, revertRotation, snapEuler] using snapZero_snapZero_close r.2.2
  · exact snapZero_zero_or_ge _
  · exact snapZero_zero_or_ge _
  · exact snapZero_zero_or_ge _
  · exact snapZero_zero_or_ge _
  · exact snapZero_zero_or_ge _
  · exact snapZero_zero_or_ge _

/-! ## bake_transform.py — scene state and the single-object operations -/

/-- Scene object as the bake transform sees it: a name, a `obj.type` string,
the `rotation_euler` triple and the `select_get()` flag. -/
structure BObject where
  name : String
  type : String
  rotation : Euler
  selected : Bool
deriving Repr, DecidableEq

/-- Host scene state: the objects of `context.view_layer.objects` (equally of
`bpy.context.scene.objects`), the active object (by name), and the oracle
`failing` naming the objects on which the host `bpy.ops.transform` calls
raise an exception. -/
structure Scene where
  objects : List BObject
  active : Option String
  failing : List String
deriving Repr, DecidableEq

/-- Look an object up by name (object references are modelled by names). -/
def Scene.find? (s : Scene) (n : String) : Option BObject :=
  s.objects.find? (fun o => o.name == n)

/-- Effect of `bpy.ops.object.select_all(action='DESELECT')`. -/
def Scene.deselectAll (s : Scene) : Scene :=
  { s with objects := s.objects.map (fun o => { o with selected := false }) }

/-- Effect of `obj.select_set(True)` on the object named `n`. -/
def Scene.select (s : Scene) (n : String) : Scene :=
  { s with objects := s.objects.map (fun o =>
      if o.name == n then { o with selected := true } else o) }

/-- Effect of writing `obj.rotation_euler` on the object named `n`, as a
function of the rotation the object holds at that point. -/
def Scene.updateRotation (s : Scene) (n : String) (f : Euler → Euler) : Scene :=
  { s with objects := s.objects.map (fun o =>
      if o.name == n then { o with rotation := f o.rotation } else o) }

/-- Rotation of the object named `n`, when it exists. -/
def Scene.rotation? (s : Scene) (n : String) : Option Euler :=
  (s.find? n).map (fun o => o.rotation)

/-- Function `apply_bake_transform(obj, context)`: stores the original active
object and the object's selection flag, deselects everything, selects and
activates the object, then re-bases its geometry by −90° on X and writes back
the original rotation plus 90° on X, epsilon-snapped.  When the host
transform ops raise (the `failing` oracle), the rotation has already been
reset to `(0, 0, 0)` and `False` is reported; otherwise `True`.  Returns
`(success, original_active, original_selected)` with the successor scene. -/
def apply_bake_transform (s : Scene) (n : String) :
    (Bool × Option String × Bool) × Scene :=
  let original_active := s.active
  let original_selected := ((s.find? n).map (fun o => o.selected)).getD false
  let s1 : Scene := { s.deselectAll.select n with active := some n }
  if s.failing.contains n then
    ((false, original_active, original_selected),
      s1.updateRotation n (fun _ => (0, 0, 0)))
  else
    ((true, original_active, original_selected), s1.updateRotation n bakeRotation)

/-- Function `revert_bake_transform(obj, context)`: the inverse operation,
computing current rotation minus 90° on X (epsilon-snapped), re-basing the
geometry by +90° on X, and writing the computed rotation back.  Failure of
the host transform ops likewise leaves the rotation at `(0, 0, 0)`. -/
def revert_bake_transform (s : Scene) (n : String) :
    (Bool × Option String × Bool) × Scene :=
  let original_active := s.active
  let original_selected := ((s.find? n).map (fun o => o.selected)).getD false
  let s1 : Scene := { s.deselectAll.select n with active := some n }
  if s.failing.contains n then
    ((false, original_active, original_selected),
      s1.updateRotation n (fun _ => (0, 0, 0)))
  else
    ((true, original_active, original_selected), s1.updateRotation n revertRotation)

theorem find?_map_of_name_eq {l : List BObject} {f : BObject → BObject}
    (hf : ∀ o, (f o).name = o.name) (n : String) :
    (l.map f).find? (fun o => o.name == n) = (l.find? (fun o => o.name == n)).map f := by
  rw [List.find?_map]
  have : ((fun o : BObject => o.name == n) ∘ f) = (fun o : BObject => o.name == n) := by
    funext o
    simp [hf o]
  rw [this]

theorem apply_bake_transform_objects (s : Scene) (n : String) :
    ((apply_bake_transform s n).2).objects
      = s.objects.map (fun o =>
          if o.name == n then
            { o with selected := true,
                     rotation := if s.failing.contains n then (0, 0, 0)
                                 else bakeRotation o.rotation }
          else { o with selected := false }) := by
  unfold apply_bake_transform
  by_cases hf : s.failing.contains n
  all_goals
    simp only [Scene.select, Scene.deselectAll, Scene.updateRotation, hf,
      if_true, if_false, Bool.false_eq_true, List.map_map]
    refine List.map_congr_left (fun o _ => ?_)
    by_cases hn : o.name == n
    all_goals simp [Function.comp, hn, hf]

theorem revert_bake_transform_objects (s : Scene) (n : String) :
    ((revert_bake_transform s n).2).objects
      = s.objects.map (fun o =>
          if o.name == n then
            { o with selected := true,
                     rotation := if s.failing.contains n then (0, 0, 0)
                                 else revertRotation o.rotation }
          else { o with selected := false }) := by
  unfold revert_bake_transform
  by_cases hf : s.failing.contains n
  all_goals
    simp only [Scene.select, Scene.deselectAll, Scene.updateRotation, hf,
      if_true, if_false, Bool.false_eq_true, List.map_map]
    refine List.map_congr_left (fun o _ => ?_)
    by_cases hn : o.name == n
    all_goals simp [Function.comp, hn, hf]

theorem apply_bake_transform_success (s : Scene) (n : String) :
    ((apply_bake_transform s n).1).1 = !(s.failing.contains n) := by
  by_cases hf : n ∈ s.failing <;>
    simp [apply_bake_transform, Scene.select, Scene.deselectAll, hf]

theorem revert_bake_transform_success (s : Scene) (n : String) :
    ((revert_bake_transform s n).1).1 = !(s.failing.contains n) := by
  by_cases hf : n ∈ s.failing <;>
    simp [revert_bake_transform, Scene.select, Scene.deselectAll, hf]

theorem apply_bake_transform_failing (s : Scene) (n : String) :
    ((apply_bake_transform s n).2).failing = s.failing := by
  by_cases hf : n ∈ s.failing <;>
    simp [apply_bake_transform, Scene.select, Scene.deselectAll, Scene.updateRotation, hf]

theorem revert_bake_transform_failing (s : Scene) (n : String) :
    ((revert_bake_transform s n).2).failing = s.failing := by
  by_cases hf : n ∈ s.failing <;>
    simp [revert_bake_transform, Scene.select, Scene.deselectAll, Scene.updateRotation, hf]

/-! ## bake_transform.py — batch operations -/

/-- Object categories processed by the batch operations (`obj.type in {'MESH',
'CURVE', 'SURFACE', 'META', 'FONT', 'ARMATURE', 'EMPTY'}`). -/
def eligible_types : List String :=
  ["MESH", "CURVE", "SURFACE", "META", "FONT", "ARMATURE", "EMPTY"]

/-- Eligibility of the object named `n` for the batch loops. -/
def Scene.eligible (s : Scene) (n : String) : Bool :=
  match s.find? n with
  | some o => eligible_types.contains o.type
  | none => false

/-- Loop body shared verbatim by `apply_bake_transform_to_objects` and
`revert_bake_transform_from_objects`: dereference the object, process it when
its type is eligible, bump `success_count` on success and append the name to
`failed_objects` on failure.  The accumulator is
`(scene, success_count, failed_objects)`. -/
def bakeStep (single : Scene → String → (Bool × Option String × Bool) × Scene)
    (acc : Scene × Nat × List String) (n : String) : Scene × Nat × List String :=
  match acc.1.find? n with
  | some o =>
    if eligible_types.contains o.type then
      let r := single acc.1 n
      if (r.1).1 then (r.2, acc.2.1 + 1, acc.2.2)
      else (r.2, acc.2.1, acc.2.2 ++ [n])
    else acc
  | none => acc

/-- Per-object loop of the two batch operations. -/
def bake_batch_loop (single : Scene → String → (Bool × Option String × Bool) × Scene)
    (s : Scene) (objs : List String) : Scene × Nat × List String :=
  objs.foldl (bakeStep single) (s, 0, [])

/-- Function `apply_bake_transform_to_objects(objects, context)`: records the
original active object and the selected objects among the supplied list, runs
the per-object loop, then deselects everything, re-selects the recorded
selection, and restores the active object when there was one.  Returns
`(success_count > 0, original_active, original_selection, failed_objects)`
(the failed-objects list is kept in the result so that the logged value is
observable) together with the final scene. -/
def apply_bake_transform_to_objects (s : Scene) (objs : List String) :
    (Bool × Option String × List String × List String) × Scene :=
  let original_active := s.active
  let original_selection :=
    objs.filter (fun n => ((s.find? n).map (fun o => o.selected)).getD false)
  let r := bake_batch_loop apply_bake_transform s objs
  let s2 := original_selection.foldl (fun st n => st.select n) r.1.deselectAll
  let s3 := match original_active with
    | some a => { s2 with active := some a }
    | none => s2
  ((decide (0 < r.2.1), original_active, original_selection, r.2.2), s3)

/-- Function `revert_bake_transform_from_objects(objects, context,
original_active=None, original_selection=None)`: runs the per-object loop,
then — only when `original_selection` was supplied — deselects everything and
re-selects the supplied names, skipping (via the `try`/`except` and the
scene-membership test) any that no longer exist; the active object is
restored only when supplied and still present.  Returns
`(success_count > 0, failed_objects)` with the final scene. -/
def revert_bake_transform_from_objects (s : Scene) (objs : List String)
    (original_active : Option String) (original_selection : Option (List String)) :
    (Bool × List String) × Scene :=
  let r := bake_batch_loop revert_bake_transform s objs
  let s2 := match original_selection with
    | some sel =>
        sel.foldl (fun st n => if (st.find? n).isSome then st.select n else st)
          r.1.deselectAll
    | none => r.1
  let s3 := match original_active with
    | some a => if (s2.find? a).isSome then { s2 with active := some a } else s2
    | none => s2
  ((decide (0 < r.2.1), r.2.2), s3)

/-- Name-and-type signature of a scene: everything the batch loop's control
flow depends on besides `failing`. -/
def Scene.sig (s : Scene) : List (String × String) :=
  s.objects.map (fun o => (o.name, o.type))

theorem find?_pair_of_sig (s : Scene) (n : String) :
    s.sig.find? (fun p => p.1 == n) = (s.find? n).map (fun o => (o.name, o.type)) := by
  unfold Scene.sig Scene.find?
  rw [List.find?_map]
  rfl

theorem find?_type_of_sig {s t : Scene} (h : s.sig = t.sig) (n : String) :
    (s.find? n).map (fun o => o.type) = (t.find? n).map (fun o => o.type) := by
  have h2 : (s.find? n).map (fun o => (o.name, o.type))
      = (t.find? n).map (fun o => (o.name, o.type)) := by
    rw [← find?_pair_of_sig, ← find?_pair_of_sig, h]
  calc (s.find? n).map (fun o => o.type)
      = ((s.find? n).map (fun o => (o.name, o.type))).map (fun p => p.2) := by
        cases s.find? n <;> rfl
    _ = ((t.find? n).map (fun o => (o.name, o.type))).map (fun p => p.2) := by rw [h2]
    _ = (t.find? n).map (fun o => o.type) := by cases t.find? n <;> rfl

theorem find?_isSome_of_sig {s t : Scene} (h : s.sig = t.sig) (n : String) :
    (s.find? n).isSome = (t.find? n).isSome := by
  have h2 := find?_type_of_sig h n
  cases hs : s.find? n <;> cases ht : t.find? n <;> rw [hs, ht] at h2 <;> simp_all

theorem eligible_of_sig {s t : Scene} (h : s.sig = t.sig) (n : String) :
    s.eligible n = t.eligible n := by
  have h2 := find?_type_of_sig h n
  unfold Scene.eligible
  cases hs : s.find? n <;> cases ht : t.find? n <;> rw [hs, ht] at h2 <;> simp_all

theorem apply_bake_transform_sig (s : Scene) (n : String) :
    ((apply_bake_transform s n).2).sig = s.sig := by
  unfold Scene.sig
  rw [apply_bake_transform_objects, List.map_map]
  refine List.map_congr_left (fun o _ => ?_)
  by_cases hn : o.name == n <;> simp [Function.comp, hn]

theorem revert_bake_transform_sig (s : Scene) (n : String) :
    ((revert_bake_transform s n).2).sig = s.sig := by
  unfold Scene.sig
  rw [revert_bake_transform_objects, List.map_map]
  refine List.map_congr_left (fun o _ => ?_)
  by_cases hn : o.name == n <;> simp [Function.comp, hn]

theorem rotation?_eq_of_objects_map {s t : Scene} {f : BObject → BObject}
    (h1 : t.objects = s.objects.map f) (h2 : ∀ o, (f o).name = o.name)
    (h3 : ∀ o, (f o).rotation = o.rotation) (m : String) :
    t.rotation? m = s.rotation? m := by
  unfold Scene.rotation? Scene.find?
  rw [h1, find?_map_of_name_eq h2]
  cases s.objects.find? (fun o => o.name == m) with
  | none => rfl
  | some o => simp [h3]

theorem apply_bake_transform_rotation?_ne (s : Scene) (n m : String) (h : ¬ m = n) :
    ((apply_bake_transform s n).2).rotation? m = s.rotation? m := by
  unfold Scene.rotation? Scene.find?
  rw [apply_bake_transform_objects,
    find?_map_of_name_eq (fun o => by by_cases hn : o.name == n <;> simp [hn])]
  cases hfind : s.objects.find? (fun o => o.name == m) with
  | none => rfl
  | some o =>
    have hp : o.name = m := by simpa using List.find?_some hfind
    simp [hp, h]

theorem revert_bake_transform_rotation?_ne (s : Scene) (n m : String) (h : ¬ m = n) :
    ((revert_bake_transform s n).2).rotation? m = s.rotation? m := by
  unfold Scene.rotation? Scene.find?
  rw [revert_bake_transform_objects,
    find?_map_of_name_eq (fun o => by by_cases hn : o.name == n <;> simp [hn])]
  cases hfind : s.objects.find? (fun o => o.name == m) with
  | none => rfl
  | some o =>
    have hp : o.name = m := by simpa using List.find?_some hfind
    simp [hp, h]

theorem bake_batch_loop_spec
    (single : Scene → String → (Bool × Option String × Bool) × Scene)
    (hsig : ∀ st n, ((single st n).2).sig = st.sig)
    (hfail : ∀ st n, ((single st n).2).failing = st.failing)
    (hsucc : ∀ st n, ((single st n).1).1 = !(st.failing.contains n))
    (hrot : ∀ st n m, ¬ m = n → ((single st n).2).rotation? m = st.rotation? m) :
    ∀ (objs : List String) (st : Scene) (cnt : Nat) (fl : List String),
      (objs.foldl (bakeStep single) (st, cnt, fl)).1.sig = st.sig
      ∧ (objs.foldl (bakeStep single) (st, cnt, fl)).1.failing = st.failing
      ∧ (objs.foldl (bakeStep single) (st, cnt, fl)).2.1
          = cnt + (objs.filter (fun k => st.eligible k && !(st.failing.contains k))).length
      ∧ (objs.foldl (bakeStep single) (st, cnt, fl)).2.2
          = fl ++ objs.filter (fun k => st.eligible k && st.failing.contains k)
      ∧ (∀ m, st.eligible m = false ∨ ¬ m ∈ objs →
          (objs.foldl (bakeStep single) (st, cnt, fl)).1.rotation? m = st.rotation? m) := by
  intro objs
  induction objs with
  | nil =>
    intro st cnt fl
    exact ⟨rfl, rfl, by simp, by simp, fun m _ => rfl⟩
  | cons n objs ih =>
    intro st cnt fl
    rw [List.foldl_cons]
    cases hfind : st.find? n with
    | none =>
      have hel : st.eligible n = false := by simp [Scene.eligible, hfind]
      have hb : bakeStep single (st, cnt, fl) n = (st, cnt, fl) := by
        simp [bakeStep, hfind]
      rw [hb]
      obtain ⟨ih1, ih2, ih3, ih4, ih5⟩ := ih st cnt fl
      refine ⟨ih1, ih2, ?_, ?_, ?_⟩
      · rw [ih3, List.filter_cons]
        simp [hel]
      · rw [ih4, List.filter_cons]
        simp [hel]
      · intro m hm
        refine ih5 m ?_
        rcases hm with hm | hm
        · exact Or.inl hm
        · exact Or.inr (fun hc => hm (List.mem_cons_of_mem n hc))
    | some o =>
      by_cases he : o.type ∈ eligible_types
      · have hel : st.eligible n = true := by simp [Scene.eligible, hfind, he]
        by_cases hf : n ∈ st.failing
        · have hs : ((single st n).1).1 = false := by rw [hsucc]; simp [hf]
          have hb : bakeStep single (st, cnt, fl) n = ((single st n).2, cnt, fl ++ [n]) := by
            simp [bakeStep, hfind, he, hs]
          rw [hb]
          obtain ⟨ih1, ih2, ih3, ih4, ih5⟩ := ih ((single st n).2) cnt (fl ++ [n])
          have hsig' := hsig st n
          have hfail' := hfail st n
          have hfilt1 : objs.filter (fun k =>
                ((single st n).2).eligible k && !(((single st n).2).failing.contains k))
              = objs.filter (fun k => st.eligible k && !(st.failing.contains k)) :=
            List.filter_congr (fun k _ => by rw [eligible_of_sig hsig', hfail'])
          have hfilt2 : objs.filter (fun k =>
                ((single st n).2).eligible k && ((single st n).2).failing.contains k)
              = objs.filter (fun k => st.eligible k && st.failing.contains k) :=
            List.filter_congr (fun k _ => by rw [eligible_of_sig hsig', hfail'])
          refine ⟨ih1.trans hsig', ih2.trans hfail', ?_, ?_, ?_⟩
          · rw [ih3, hfilt1, List.filter_cons]
            simp [hel, hf]
          · rw [ih4, hfilt2, List.filter_cons]
            simp [hel, hf, List.append_assoc]
          · intro m hm
            have hmn : ¬ m = n := by
              rcases hm with hm | hm
              · intro hq
                rw [hq, hel] at hm
                cases hm
              · intro hq
                rw [hq] at hm
                exact hm (List.mem_cons_self n objs)
            have h5 := ih5 m ?_
            · exact h5.trans (hrot st n m hmn)
            · rcases hm with hm | hm
              · exact Or.inl ((eligible_of_sig hsig' m).trans hm)
              · exact Or.inr (fun hc => hm (List.mem_cons_of_mem n hc))
        · have hs : ((single st n).1).1 = true := by rw [hsucc]; simp [hf]
          have hb : bakeStep single (st, cnt, fl) n = ((single st n).2, cnt + 1, fl) := by
            simp [bakeStep, hfind, he, hs]
          rw [hb]
          obtain ⟨ih1, ih2, ih3, ih4, ih5⟩ := ih ((single st n).2) (cnt + 1) fl
          have hsig' := hsig st n
          have hfail' := hfail st n
          have hfilt1 : objs.filter (fun k =>
                ((single st n).2).eligible k && !(((single st n).2).failing.contains k))
              = objs.filter (fun k => st.eligible k && !(st.failing.contains k)) :=
            List.filter_congr (fun k _ => by rw [eligible_of_sig hsig', hfail'])
          have hfilt2 : objs.filter (fun k =>
                ((single st n).2).eligible k && ((single st n).2).failing.contains k)
              = objs.filter (fun k => st.eligible k && st.failing.contains k) :=
            List.filter_congr (fun k _ => by rw [eligible_of_sig hsig', hfail'])
          refine ⟨ih1.trans hsig', ih2.trans hfail', ?_, ?_, ?_⟩
          · rw [ih3, hfilt1, List.filter_cons]
            simp [hel, hf]
            try omega
          · rw [ih4, hfilt2, List.filter_cons]
            simp [hel, hf]
          · intro m hm
            have hmn : ¬ m = n := by
              rcases hm with hm | hm
              · intro hq
                rw [hq, hel] at hm
                cases hm
              · intro hq
                rw [hq] at hm
                exact hm (List.mem_cons_self n objs)
            have h5 := ih5 m ?_
            · exact h5.trans (hrot st n m hmn)
            · rcases hm with hm | hm
              · exact Or.inl ((eligible_of_sig hsig' m).trans hm)
              · exact Or.inr (fun hc => hm (List.mem_cons_of_mem n hc))
      · have hel : st.eligible n = false := by simp [Scene.eligible, hfind, he]
        have hb : bakeStep single (st, cnt, fl) n = (st, cnt, fl) := by
          simp [bakeStep, hfind, he]
        rw [hb]
        obtain ⟨ih1, ih2, ih3, ih4, ih5⟩ := ih st cnt fl
        refine ⟨ih1, ih2, ?_, ?_, ?_⟩
        · rw [ih3, List.filter_cons]
          simp [hel]
        · rw [ih4, List.filter_cons]
          simp [hel]
        · intro m hm
          refine ih5 m ?_
          rcases hm with hm | hm
          · exact Or.inl hm
          · exact Or.inr (fun hc => hm (List.mem_cons_of_mem n hc))

theorem find?_congr_objects {s t : Scene} (h : s.objects = t.objects) (m : String) :
    s.find? m = t.find? m := by
  unfold Scene.find?
  rw [h]

theorem sig_eq_of_objects_map {s t : Scene} (f : BObject → BObject)
    (h1 : t.objects = s.objects.map f) (h2 : ∀ o, (f o).name = o.name)
    (h3 : ∀ o, (f o).type = o.type) : t.sig = s.sig := by
  unfold Scene.sig
  rw [h1, List.map_map]
  exact List.map_congr_left (fun o _ => by simp [Function.comp, h2, h3])

theorem rotation?_eq_of_objects_map' {s t : Scene} (f : BObject → BObject)
    (h1 : t.objects = s.objects.map f) (h2 : ∀ o, (f o).name = o.name)
    (h3 : ∀ o, (f o).rotation = o.rotation) (m : String) :
    t.rotation? m = s.rotation? m := by
  unfold Scene.rotation? Scene.find?
  rw [h1, find?_map_of_name_eq h2]
  cases s.objects.find? (fun o => o.name == m) with
  | none => rfl
  | some o => simp [h3]

theorem selectFold_objects (sel : List String) :
    ∀ (st : Scene),
      (sel.foldl (fun t k => t.select k) st).objects
        = st.objects.map (fun o =>
            if sel.contains o.name then { o with selected := true } else o) := by
  induction sel with
  | nil =>
    intro st
    simp
  | cons k sel ih =>
    intro st
    rw [List.foldl_cons, ih]
    show (st.objects.map fun o =>
      if o.name == k then { o with selected := true } else o).map _ = _
    rw [List.map_map]
    refine List.map_congr_left (fun o _ => ?_)
    by_cases hk : o.name = k <;> by_cases hsel : o.name ∈ sel <;>
      simp [Function.comp, hk, hsel]

theorem selectFoldGuard_objects (sel : List String) :
    ∀ (st : Scene),
      (sel.foldl (fun t k => if (t.find? k).isSome then t.select k else t) st).objects
        = st.objects.map (fun o =>
            if sel.contains o.name then { o with selected := true } else o) := by
  induction sel with
  | nil =>
    intro st
    simp
  | cons k sel ih =>
    intro st
    rw [List.foldl_cons]
    by_cases hg : (st.find? k).isSome
    · rw [if_pos hg, ih]
      show (st.objects.map fun o =>
        if o.name == k then { o with selected := true } else o).map _ = _
      rw [List.map_map]
      refine List.map_congr_left (fun o _ => ?_)
      by_cases hk : o.name = k <;> by_cases hsel : o.name ∈ sel <;>
        simp [Function.comp, hk, hsel]
    · rw [if_neg hg, ih]
      refine List.map_congr_left (fun o ho => ?_)
      have hnone : st.find? k = none := by
        cases hfk : st.find? k
        · rfl
        · rw [hfk] at hg
          simp at hg
      have hk : ¬ o.name = k := by
        have h2 : ¬ (o.name == k) = true := List.find?_eq_none.1 hnone o ho
        simpa using h2
      by_cases hsel : o.name ∈ sel <;> simp [hk, hsel]

theorem selectFold_active (sel : List String) :
    ∀ (st : Scene), (sel.foldl (fun t k => t.select k) st).active = st.active := by
  induction sel with
  | nil => intro st; rfl
  | cons k sel ih =>
    intro st
    rw [List.foldl_cons, ih]
    rfl

theorem selectFoldGuard_active (sel : List String) :
    ∀ (st : Scene),
      (sel.foldl (fun t k => if (t.find? k).isSome then t.select k else t) st).active
        = st.active := by
  induction sel with
  | nil => intro st; rfl
  | cons k sel ih =>
    intro st
    rw [List.foldl_cons]
    by_cases hg : (st.find? k).isSome
    · rw [if_pos hg, ih]
      rfl
    · rw [if_neg hg, ih]

theorem map_const_of_isSome_eq {x y : Option BObject} (h : x.isSome = y.isSome) (c : Bool) :
    x.map (fun _ => c) = y.map (fun _ => c) := by
  cases x <;> cases y <;> simp_all

theorem restore_objects (base : Scene) (sel : List String) :
    (sel.foldl (fun t k => t.select k) base.deselectAll).objects
      = base.objects.map (fun o =>
          if sel.contains o.name then { o with selected := true }
          else { o with selected := false }) := by
  rw [selectFold_objects]
  show (base.objects.map fun o => { o with selected := false }).map _ = _
  rw [List.map_map]
  exact List.map_congr_left (fun o _ => by
    by_cases hsel : o.name ∈ sel <;> simp [Function.comp, hsel])

theorem restoreGuard_objects (base : Scene) (sel : List String) :
    (sel.foldl (fun t k => if (t.find? k).isSome then t.select k else t)
        base.deselectAll).objects
      = base.objects.map (fun o =>
          if sel.contains o.name then { o with selected := true }
          else { o with selected := false }) := by
  rw [selectFoldGuard_objects]
  show (base.objects.map fun o => { o with selected := false }).map _ = _
  rw [List.map_map]
  exact List.map_congr_left (fun o _ => by
    by_cases hsel : o.name ∈ sel <;> simp [Function.comp, hsel])

theorem find?_map_selected (base : Scene) (l : List BObject) (sel : List String)
    (hobj : l = base.objects.map (fun o =>
        if sel.contains o.name then { o with selected := true }
        else { o with selected := false })) (m : String) :
    (l.find? (fun o => o.name == m)).map (fun o => o.selected)
      = (base.find? m).map (fun _ => sel.contains m) := by
  rw [hobj, find?_map_of_name_eq (fun o => by
    by_cases hsel : o.name ∈ sel <;> simp [hsel])]
  unfold Scene.find?
  cases hfind : base.objects.find? (fun o => o.name == m) with
  | none => rfl
  | some o =>
    have hp : o.name = m := by simpa using List.find?_some hfind
    rw [← hp]
    by_cases hsel : o.name ∈ sel <;> simp [hsel]

theorem restore_selected (base : Scene) (sel : List String) (m : String) :
    ((sel.foldl (fun t k => t.select k) base.deselectAll).find? m).map (fun o => o.selected)
      = (base.find? m).map (fun _ => sel.contains m) :=
  find?_map_selected base _ sel (restore_objects base sel) m

theorem restoreGuard_selected (base : Scene) (sel : List String) (m : String) :
    ((sel.foldl (fun t k => if (t.find? k).isSome then t.select k else t)
        base.deselectAll).find? m).map (fun o => o.selected)
      = (base.find? m).map (fun _ => sel.contains m) :=
  find?_map_selected base _ sel (restoreGuard_objects base sel) m

theorem restore_sig (base : Scene) (sel : List String) :
    (sel.foldl (fun t k => t.select k) base.deselectAll).sig = base.sig := by
  refine sig_eq_of_objects_map _ (restore_objects base sel) ?_ ?_
  · intro o
    by_cases hsel : o.name ∈ sel <;> simp [hsel]
  · intro o
    by_cases hsel : o.name ∈ sel <;> simp [hsel]

theorem restoreGuard_sig (base : Scene) (sel : List String) :
    (sel.foldl (fun t k => if (t.find? k).isSome then t.select k else t)
        base.deselectAll).sig = base.sig := by
  refine sig_eq_of_objects_map _ (restoreGuard_objects base sel) ?_ ?_
  · intro o
    by_cases hsel : o.name ∈ sel <;> simp [hsel]
  · intro o
    by_cases hsel : o.name ∈ sel <;> simp [hsel]

theorem restore_rotation? (base : Scene) (sel : List String) (m : String) :
    (sel.foldl (fun t k => t.select k) base.deselectAll).rotation? m
      = base.rotation? m := by
  refine rotation?_eq_of_objects_map' _ (restore_objects base sel) ?_ ?_ m
  · intro o
    by_cases hsel : o.name ∈ sel <;> simp [hsel]
  · intro o
    by_cases hsel : o.name ∈ sel <;> simp [hsel]

theorem restoreGuard_rotation? (base : Scene) (sel : List String) (m : String) :
    (sel.foldl (fun t k => if (t.find? k).isSome then t.select k else t)
        base.deselectAll).rotation? m = base.rotation? m := by
  refine rotation?_eq_of_objects_map' _ (restoreGuard_objects base sel) ?_ ?_ m
  · intro o
    by_cases hsel : o.name ∈ sel <;> simp [hsel]
  · intro o
    by_cases hsel : o.name ∈ sel <;> simp [hsel]

theorem contains_filter {α : Type} [BEq α] [LawfulBEq α] (l : List α) (p : α → Bool) (a : α) :
    (l.filter p).contains a = (l.contains a && p a) := by
  induction l with
  | nil => simp
  | cons b l ih =>
    rw [List.filter_cons]
    by_cases hb : p b
    · rw [if_pos hb, List.contains_cons, List.contains_cons, ih]
      by_cases hab : (a == b) = true
      · have hq : a = b := eq_of_beq hab
        subst hq
        simp [hb, hab]
      · rw [Bool.not_eq_true] at hab
        simp [hab]
    · rw [Bool.not_eq_true] at hb
      rw [if_neg (by simp [hb]), ih, List.contains_cons]
      by_cases hab : (a == b) = true
      · have hq : a = b := eq_of_beq hab
        subst hq
        simp [hb, hab]
      · rw [Bool.not_eq_true] at hab
        simp [hab]

theorem decide_pos_filter_length {α : Type} (l : List α) (p : α → Bool) :
    decide (0 < (l.filter p).length) = l.any p := by
  induction l with
  | nil => rfl
  | cons a l ih =>
    rw [List.filter_cons, List.any_cons]
    cases hp : p a <;> simp [ih]

theorem rotation?_congr_objects {s t : Scene} (h : s.objects = t.objects) (m : String) :
    s.rotation? m = t.rotation? m := by
  unfold Scene.rotation?
  rw [find?_congr_objects h]

theorem active_of_if_isSome {t : Scene} (a : String) (h : (t.find? a).isSome) :
    (if (t.find? a).isSome then { t with active := some a } else t).active = some a := by
  rw [if_pos h]

theorem apply_batch_scene_objects (s : Scene) (objs : List String) :
    ((apply_bake_transform_to_objects s objs).2).objects
      = ((objs.filter (fun n => ((s.find? n).map (fun o => o.selected)).getD false)).foldl
          (fun t k => t.select k)
          ((objs.foldl (bakeStep apply_bake_transform) (s, 0, [])).1.deselectAll)).objects := by
  unfold apply_bake_transform_to_objects bake_batch_loop
  cases hact : s.active <;> rfl

theorem apply_batch_scene_active (s : Scene) (objs : List String) (a : String)
    (h : s.active = some a) :
    ((apply_bake_transform_to_objects s objs).2).active = some a := by
  unfold apply_bake_transform_to_objects bake_batch_loop
  rw [h]

theorem objects_if_active (c : Prop) [Decidable c] (t : Scene) (x : Option String) :
    (if c then { t with active := x } else t).objects = t.objects := by
  split <;> rfl

theorem revert_batch_scene_objects_some (s : Scene) (objs : List String)
    (act : Option String) (sel : List String) :
    ((revert_bake_transform_from_objects s objs act (some sel)).2).objects
      = (sel.foldl (fun t k => if (t.find? k).isSome then t.select k else t)
          ((objs.foldl (bakeStep revert_bake_transform) (s, 0, [])).1.deselectAll)).objects := by
  unfold revert_bake_transform_from_objects bake_batch_loop
  cases act with
  | none => rfl
  | some a => exact objects_if_active _ _ _

theorem revert_batch_scene_objects_none (s : Scene) (objs : List String)
    (act : Option String) :
    ((revert_bake_transform_from_objects s objs act none).2).objects
      = ((objs.foldl (bakeStep revert_bake_transform) (s, 0, [])).1).objects := by
  unfold revert_bake_transform_from_objects bake_batch_loop
  cases act with
  | none => rfl
  | some a => exact objects_if_active _ _ _

/-- Claim C4: for every supplied object list, the batch bake and batch unbake
apply the single-object operation exactly to the objects whose category is in
the eligible set (every other object keeps its rotation), their failed-objects
list contains exactly the names of the eligible objects whose single-object
call failed, and they report overall success iff at least one eligible object
succeeded — in particular they fail when no supplied object is eligible. -/
theorem c4_batch_eligible_failed_success (s : Scene) (objs : List String)
    (act : Option String) (sel : Option (List String)) :
    ((apply_bake_transform_to_objects s objs).1.1
        = objs.any (fun n => s.eligible n && !(s.failing.contains n)))
    ∧ ((apply_bake_transform_to_objects s objs).1.2.2.2
        = objs.filter (fun n => s.eligible n && s.failing.contains n))
    ∧ (∀ m, s.eligible m = false ∨ ¬ m ∈ objs →
        ((apply_bake_transform_to_objects s objs).2).rotation? m = s.rotation? m)
    ∧ ((revert_bake_transform_from_objects s objs act sel).1.1
        = objs.any (fun n => s.eligible n && !(s.failing.contains n)))
    ∧ ((revert_bake_transform_from_objects s objs act sel).1.2
        = objs.filter (fun n => s.eligible n && s.failing.contains n))
    ∧ (∀ m, s.eligible m = false ∨ ¬ m ∈ objs →
        ((revert_bake_transform_from_objects s objs act sel).2).rotation? m
          = s.rotation? m) := by
  obtain ⟨ha1, ha2, ha3, ha4, ha5⟩ :=
    bake_batch_loop_spec apply_bake_transform apply_bake_transform_sig
      apply_bake_transform_failing apply_bake_transform_success
      apply_bake_transform_rotation?_ne objs s 0 []
  obtain ⟨hr1, hr2, hr3, hr4, hr5⟩ :=
    bake_batch_loop_spec revert_bake_transform revert_bake_transform_sig
      revert_bake_transform_failing revert_bake_transform_success
      revert_bake_transform_rotation?_ne objs s 0 []
  refine ⟨?_, ?_, ?_, ?_, ?_, ?_⟩
  · show decide (0 < (objs.foldl (bakeStep apply_bake_transform) (s, 0, [])).2.1) = _
    rw [ha3, Nat.zero_add]
    exact decide_pos_filter_length objs _
  · show (objs.foldl (bakeStep apply_bake_transform) (s, 0, [])).2.2 = _
    rw [ha4]
    exact List.nil_append _
  · intro m hm
    rw [rotation?_congr_objects (apply_batch_scene_objects s objs) m,
      restore_rotation?]
    exact ha5 m hm
  · show decide (0 < (objs.foldl (bakeStep revert_bake_transform) (s, 0, [])).2.1) = _
    rw [hr3, Nat.zero_add]
    exact decide_pos_filter_length objs _
  · show (objs.foldl (bakeStep revert_bake_transform) (s, 0, [])).2.2 = _
    rw [hr4]
    exact List.nil_append _
  · intro m hm
    cases sel with
    | none =>
      rw [rotation?_congr_objects (revert_batch_scene_objects_none s objs act) m]
      exact hr5 m hm
    | some l =>
      rw [rotation?_congr_objects (revert_batch_scene_objects_some s objs act l) m,
        restoreGuard_rotation?]
      exact hr5 m hm

/-- Witness for C4 at a concrete scene: a two-object list where the first
object is of an ineligible category and the second is eligible but failing,
so the batch fails overall, the failed list is exactly the second name, and
the first object's rotation is untouched. -/
theorem c4_witness :
    ((apply_bake_transform_to_objects
        ⟨[⟨"Lamp", "LIGHT", (0, 0, 0), false⟩, ⟨"Cube", "MESH", (0, 0, 0), true⟩],
          none, ["Cube"]⟩ ["Lamp", "Cube"]).1.1
      = (["Lamp", "Cube"].any (fun n =>
          (⟨[⟨"Lamp", "LIGHT", (0, 0, 0), false⟩, ⟨"Cube", "MESH", (0, 0, 0), true⟩],
            none, ["Cube"]⟩ : Scene).eligible n
          && !((["Cube"] : List String).contains n))))
    ∧ ((apply_bake_transform_to_objects
        ⟨[⟨"Lamp", "LIGHT", (0, 0, 0), false⟩, ⟨"Cube", "MESH", (0, 0, 0), true⟩],
          none, ["Cube"]⟩ ["Lamp", "Cube"]).2.rotation? "Lamp"
      = (⟨[⟨"Lamp", "LIGHT", (0, 0, 0), false⟩, ⟨"Cube", "MESH", (0, 0, 0), true⟩],
          none, ["Cube"]⟩ : Scene).rotation? "Lamp")
    ∧ ((revert_bake_transform_from_objects
        ⟨[⟨"Lamp", "LIGHT", (0, 0, 0), false⟩, ⟨"Cube", "MESH", (0, 0, 0), true⟩],
          none, ["Cube"]⟩ ["Lamp", "Cube"] none none).2.rotation? "Lamp"
      = (⟨[⟨"Lamp", "LIGHT", (0, 0, 0), false⟩, ⟨"Cube", "MESH", (0, 0, 0), true⟩],
          none, ["Cube"]⟩ : Scene).rotation? "Lamp") := by
  obtain ⟨h1, h2, h3, h4, h5, h6⟩ :=
    c4_batch_eligible_failed_success
      ⟨[⟨"Lamp", "LIGHT", (0, 0, 0), false⟩, ⟨"Cube", "MESH", (0, 0, 0), true⟩],
        none, ["Cube"]⟩ ["Lamp", "Cube"] none none
  exact ⟨h1, h3 "Lamp" (Or.inl (by decide)), h6 "Lamp" (Or.inl (by decide))⟩

/-- Degrees-to-radians conversion of the model: `math.radians(d)` is `d / 90`
times the model's exact `math.radians(90)` constant, so that degree
arithmetic is exact. -/
def degQ (d : ℚ) : ℚ := d * BAKE_ROTATION_X / 90

/-- Claim C5: a successful single-object bake leaves the object's rotation at
the original rotation plus 90° on X with epsilon snapping (`bakeRotation`),
and in particular a rotation of (10°, 20°, 30°) becomes (100°, 20°, 30°). -/
theorem c5_single_bake_rotation (s : Scene) (n : String)
    (h : ¬ s.failing.contains n = true) :
    ((((apply_bake_transform s n).2).find? n).map (fun o => o.rotation)
        = (s.find? n).map (fun o => bakeRotation o.rotation))
    ∧ bakeRotation (degQ 10, degQ 20, degQ 30) = (degQ 100, degQ 20, degQ 30) := by
  have hnotin : ¬ n ∈ s.failing := by simpa using h
  constructor
  · unfold Scene.find?
    rw [apply_bake_transform_objects,
      find?_map_of_name_eq (fun o => by by_cases hn : (o.name == n) = true <;> simp [hn])]
    cases hfind : s.objects.find? (fun o => o.name == n) with
    | none => rfl
    | some o =>
      have hp : o.name = n := by simpa using List.find?_some hfind
      simp [hp, hnotin]
  · have h10 : degQ 10 + BAKE_ROTATION_X = degQ 100 := by
      unfold degQ
      ring
    have h100 : snapZero (degQ 100) = degQ 100 := by
      refine snapZero_of_ge ?_
      rw [abs_of_nonneg (by unfold degQ BAKE_ROTATION_X; norm_num)]
      unfold degQ BAKE_ROTATION_X BAKE_TOLERANCE
      norm_num
    have h20 : snapZero (degQ 20) = degQ 20 := by
      refine snapZero_of_ge ?_
      rw [abs_of_nonneg (by unfold degQ BAKE_ROTATION_X; norm_num)]
      unfold degQ BAKE_ROTATION_X BAKE_TOLERANCE
      norm_num
    have h30 : snapZero (degQ 30) = degQ 30 := by
      refine snapZero_of_ge ?_
      rw [abs_of_nonneg (by unfold degQ BAKE_ROTATION_X; norm_num)]
      unfold degQ BAKE_ROTATION_X BAKE_TOLERANCE
      norm_num
    show (snapZero (degQ 10 + BAKE_ROTATION_X), snapZero (degQ 20), snapZero (degQ 30)) = _
    rw [h10, h100, h20, h30]

/-- Witness for C5: a concrete one-object scene whose object is not failing;
the bake writes back exactly `bakeRotation` of the original rotation, and the
(10°, 20°, 30°) instance evaluates to (100°, 20°, 30°). -/
theorem c5_witness :
    ((((apply_bake_transform
          ⟨[⟨"Cube", "MESH", (degQ 10, degQ 20, degQ 30), true⟩], some "Cube", []⟩
          "Cube").2).find? "Cube").map (fun o => o.rotation)
        = ((⟨[⟨"Cube", "MESH", (degQ 10, degQ 20, degQ 30), true⟩], some "Cube", []⟩ :
            Scene).find? "Cube").map (fun o => bakeRotation o.rotation))
    ∧ bakeRotation (degQ 10, degQ 20, degQ 30) = (degQ 100, degQ 20, degQ 30) :=
  c5_single_bake_rotation
    ⟨[⟨"Cube", "MESH", (degQ 10, degQ 20, degQ 30), true⟩], some "Cube", []⟩
    "Cube" (by decide)

/-- Claim C3 (amended): the batch bake re-selects exactly those supplied
objects that were previously selected — so every object selected at the end
was previously selected, but a previously-selected scene object outside the
supplied list ends up deselected — and restores the previously-active object
when there was one; the batch unbake restores selection and active object
only from the state the caller supplies, silently skipping names that no
longer exist (an existing object ends selected iff its name is in the
supplied selection, and a supplied active name is restored when it still
exists). -/
theorem c3_batch_restore (s : Scene) (objs : List String) :
    (∀ m, (((apply_bake_transform_to_objects s objs).2).find? m).map (fun o => o.selected)
        = (s.find? m).map (fun _ =>
            objs.contains m && ((s.find? m).map (fun o => o.selected)).getD false))
    ∧ (∀ a, s.active = some a →
        ((apply_bake_transform_to_objects s objs).2).active = some a)
    ∧ (∀ (act : Option String) (sel : List String) (m : String),
        (((revert_bake_transform_from_objects s objs act (some sel)).2).find? m).map
            (fun o => o.selected)
          = (s.find? m).map (fun _ => sel.contains m))
    ∧ (∀ (sel : Option (List String)) (a : String), (s.find? a).isSome →
        ((revert_bake_transform_from_objects s objs (some a) sel).2).active = some a) := by
  obtain ⟨ha1, ha2, ha3, ha4, ha5⟩ :=
    bake_batch_loop_spec apply_bake_transform apply_bake_transform_sig
      apply_bake_transform_failing apply_bake_transform_success
      apply_bake_transform_rotation?_ne objs s 0 []
  obtain ⟨hr1, hr2, hr3, hr4, hr5⟩ :=
    bake_batch_loop_spec revert_bake_transform revert_bake_transform_sig
      revert_bake_transform_failing revert_bake_transform_success
      revert_bake_transform_rotation?_ne objs s 0 []
  refine ⟨?_, ?_, ?_, ?_⟩
  · intro m
    rw [find?_congr_objects (apply_batch_scene_objects s objs) m, restore_selected,
      contains_filter]
    exact map_const_of_isSome_eq (find?_isSome_of_sig ha1 m) _
  · intro a h
    exact apply_batch_scene_active s objs a h
  · intro act sel m
    rw [find?_congr_objects (revert_batch_scene_objects_some s objs act sel) m,
      restoreGuard_selected]
    exact map_const_of_isSome_eq (find?_isSome_of_sig hr1 m) _
  · intro sel a ha
    cases sel with
    | none =>
      have hiso : (((objs.foldl (bakeStep revert_bake_transform) (s, 0, [])).1).find? a).isSome := by
        rw [find?_isSome_of_sig hr1 a]
        exact ha
      exact active_of_if_isSome a hiso
    | some l =>
      have hsigg : (l.foldl (fun t k => if (t.find? k).isSome then t.select k else t)
          ((objs.foldl (bakeStep revert_bake_transform) (s, 0, [])).1.deselectAll)).sig
            = s.sig :=
        (restoreGuard_sig _ l).trans hr1
      have hiso : ((l.foldl (fun t k => if (t.find? k).isSome then t.select k else t)
          ((objs.foldl (bakeStep revert_bake_transform) (s, 0, [])).1.deselectAll)).find? a).isSome := by
        rw [find?_isSome_of_sig hsigg a]
        exact ha
      exact active_of_if_isSome a hiso

/-- Counterexample to C3 as stated: in a scene where object `A` is selected
and `B` is not, batch-baking only `[B]` ends with `A` deselected, so the
caller's previously-selected object set is not restored. -/
theorem c3_counterexample :
    (((⟨[⟨"A", "MESH", (0, 0, 0), true⟩, ⟨"B", "MESH", (0, 0, 0), false⟩],
          some "A", []⟩ : Scene).find? "A").map (fun o => o.selected) = some true)
    ∧ ((((apply_bake_transform_to_objects
          ⟨[⟨"A", "MESH", (0, 0, 0), true⟩, ⟨"B", "MESH", (0, 0, 0), false⟩],
            some "A", []⟩ ["B"]).2).find? "A").map (fun o => o.selected)
        = some false) := by
  constructor
  · decide
  · decide

/-- Witness for C3 (amended) at a concrete one-object scene, discharging the
active-object hypotheses. -/
theorem c3_witness :
    ((((apply_bake_transform_to_objects
          ⟨[⟨"A", "MESH", (0, 0, 0), true⟩], some "A", []⟩ ["A"]).2).find? "A").map
            (fun o => o.selected)
        = ((⟨[⟨"A", "MESH", (0, 0, 0), true⟩], some "A", []⟩ : Scene).find? "A").map
            (fun _ => (["A"] : List String).contains "A"
              && (((⟨[⟨"A", "MESH", (0, 0, 0), true⟩], some "A", []⟩ : Scene).find? "A").map
                    (fun o => o.selected)).getD false))
    ∧ (((apply_bake_transform_to_objects
          ⟨[⟨"A", "MESH", (0, 0, 0), true⟩], some "A", []⟩ ["A"]).2).active = some "A")
    ∧ ((((revert_bake_transform_from_objects
          ⟨[⟨"A", "MESH", (0, 0, 0), true⟩], some "A", []⟩ ["A"] (some "B")
          (some ["A", "Gone"])).2).find? "A").map (fun o => o.selected)
        = ((⟨[⟨"A", "MESH", (0, 0, 0), true⟩], some "A", []⟩ : Scene).find? "A").map
            (fun _ => (["A", "Gone"] : List String).contains "A"))
    ∧ (((revert_bake_transform_from_objects
          ⟨[⟨"A", "MESH", (0, 0, 0), true⟩], some "A", []⟩ ["A"] (some "A")
          (some [])).2).active = some "A") := by
  obtain ⟨h1, h2, h3, h4⟩ :=
    c3_batch_restore ⟨[⟨"A", "MESH", (0, 0, 0), true⟩], some "A", []⟩ ["A"]
  exact ⟨h1 "A", h2 "A" rfl, h3 (some "B") ["A", "Gone"] "A", h4 (some []) "A" (by decide)⟩

/-! ## anim_utils.py — data model of the classifier

The classifier embedding lives in the `anim` namespace because Mathlib
already claims the name `Action` at the root. -/

namespace anim

/-- Animation curve: a data path plus an array index (`fc.data_path`,
`fc.array_index`). -/
structure FCurve where
  data_path : String
  array_index : Nat
deriving Repr, DecidableEq

/-- Action slot: the `target_id_type` tag and the contents of the
layers/strips/channelbag chain that `get_fcurves_for_slot` navigates —
`none` models a chain whose lookup raises or yields nothing. -/
structure Slot where
  target_id_type : String
  channelbag_fcurves : Option (List FCurve)
deriving Repr, DecidableEq

/-- Animation clip (`bpy.types.Action`): its legacy flat `fcurves` list and
its `slots`. -/
structure Action where
  fcurves : List FCurve
  slots : List Slot
deriving Repr, DecidableEq

/-- The one bit of `obj.animation_data` the classifier reads:
`is_property_readonly('action')`. -/
structure AnimationData where
  action_readonly : Bool
deriving Repr, DecidableEq

/-- Candidate export object: name, `obj.type`, the set of paths its
`path_resolve` resolves, the resolvable paths of `obj.data.shape_keys` when a
shape-key block exists, and the optional animation-binding data. -/
structure AObject where
  name : String
  type : String
  props : List String
  shape_keys : Option (List String)
  animation_data : Option AnimationData
deriving Repr, DecidableEq

/-- Resolver `obj.path_resolve(p)`: succeeds iff `p` is a resolvable path of
the object (a raised `ValueError` is `false`). -/
def AObject.path_resolve (o : AObject) (p : String) : Bool := o.props.contains p

/-- Path built inside `validate_actions`: the data path, with
`"[%d]" % fc.array_index` appended when `fc.array_index` is truthy
(a nonzero integer). -/
def fcurve_full_path (fc : FCurve) : String :=
  if fc.array_index != 0 then fc.data_path ++ "[" ++ toString fc.array_index ++ "]"
  else fc.data_path

/-- Function `validate_actions(act, path_resolve)`: an absent or curve-less
action is valid; otherwise every curve's full path must resolve. -/
def validate_actions (act : Option Action) (path_resolve : String → Bool) : Bool :=
  match act with
  | none => true
  | some a =>
    if a.fcurves.isEmpty then true
    else a.fcurves.all (fun fc => path_resolve (fcurve_full_path fc))

/-- Function `get_fcurves_for_slot(action, slot_index)`: `[]` when the index
is out of range, the slots are absent, or the layers/strips/channelbag chain
fails (the swallowed exception); otherwise the channelbag's curves. -/
def get_fcurves_for_slot (action : Action) (slot_index : Nat) : List FCurve :=
  match action.slots.get? slot_index with
  | none => []
  | some slot => slot.channelbag_fcurves.getD []

/-- Function `validate_fcurves_for_object(fcurves, obj, slot_type)`: empty
curve lists are valid; a `'KEY'` slot requires a mesh with a shape-key block
and resolves bare data paths against it; any other slot type resolves bare
data paths against the object itself.  Any resolution failure is `false`. -/
def validate_fcurves_for_object (fcurves : List FCurve) (obj : AObject)
    (slot_type : String) : Bool :=
  if fcurves.isEmpty then true
  else if slot_type == "KEY" then
    match (if obj.type == "MESH" then obj.shape_keys else none) with
    | none => false
    | some sk => fcurves.all (fun fc => sk.contains fc.data_path)
  else fcurves.all (fun fc => obj.path_resolve fc.data_path)

/-- Slot type read in the slot loop: `getattr(slot, 'target_id_type',
'OBJECT')`. -/
def slot_target_type (a : Action) (i : Nat) : String :=
  ((a.slots.get? i).map (fun sl => sl.target_id_type)).getD "OBJECT"

/-- Slot loop of `is_action_compatible_with_export` for one object: the
first slot whose gathered curves validate records the object (`break`), so
the object matches via slots iff some slot index validates. -/
def object_slot_match (act : Action) (obj : AObject) : Bool :=
  (List.range act.slots.length).any (fun slot_index =>
    validate_fcurves_for_object (get_fcurves_for_slot act slot_index) obj
      (slot_target_type act slot_index))

/-- Function `is_action_compatible_with_export`, with the export candidate
set (`get_context_objects_for_export`) passed as the opaque input the spec
describes.  Absent or curve-less actions are compatible with empty matches;
an empty candidate set is incompatible; otherwise each candidate is skipped
without binding data or with a read-only binding, matched on direct
resolution of every curve's full path, and otherwise matched on the first
validating slot. -/
def is_action_compatible_with_export (action : Option Action)
    (ctx_objects : List AObject) : Bool × List String :=
  match action with
  | none => (true, [])
  | some act =>
    if act.fcurves.isEmpty then (true, [])
    else if ctx_objects.isEmpty then (false, [])
    else
      let compatible_objects := ctx_objects.foldl (fun acc obj =>
        match obj.animation_data with
        | none => acc
        | some ad =>
          if ad.action_readonly then acc
          else if validate_actions (some act) obj.path_resolve then acc ++ [obj.name]
          else if !act.slots.isEmpty && object_slot_match act obj then acc ++ [obj.name]
          else acc) []
      (!compatible_objects.isEmpty, compatible_objects)

/-- Skip test of the candidate loop: no animation-binding data, or the
active-clip binding is read-only. -/
def classifier_skips (obj : AObject) : Bool :=
  match obj.animation_data with
  | none => true
  | some ad => ad.action_readonly

/-- Per-object match predicate implemented by the candidate loop body. -/
def object_matches (act : Action) (obj : AObject) : Bool :=
  !(classifier_skips obj)
    && (validate_actions (some act) obj.path_resolve
        || (!act.slots.isEmpty && object_slot_match act obj))

end anim

namespace anim

theorem compat_fold_eq (act : Action) :
    ∀ (ctx : List AObject) (acc : List String),
      ctx.foldl (fun acc obj =>
        match obj.animation_data with
        | none => acc
        | some ad =>
          if ad.action_readonly then acc
          else if validate_actions (some act) obj.path_resolve then acc ++ [obj.name]
          else if !act.slots.isEmpty && object_slot_match act obj then acc ++ [obj.name]
          else acc) acc
      = acc ++ (ctx.filter (object_matches act)).map (fun o => o.name) := by
  intro ctx
  induction ctx with
  | nil =>
    intro acc
    simp
  | cons obj ctx ih =>
    intro acc
    rw [List.foldl_cons]
    cases had : obj.animation_data with
    | none =>
      have hm : object_matches act obj = false := by
        simp [object_matches, classifier_skips, had]
      simp only [had]
      rw [ih, List.filter_cons]
      simp [hm]
    | some ad =>
      by_cases hro : ad.action_readonly
      · have hm : object_matches act obj = false := by
          simp [object_matches, classifier_skips, had, hro]
        simp only [had, hro, if_true]
        rw [ih, List.filter_cons]
        simp [hm]
      · by_cases hv : validate_actions (some act) obj.path_resolve
        · have hm : object_matches act obj = true := by
            simp [object_matches, classifier_skips, had, hro, hv]
          simp only [had, hro, hv, if_true, if_false, Bool.false_eq_true]
          rw [ih, List.filter_cons]
          simp [hm, List.append_assoc]
        · by_cases hs : (!act.slots.isEmpty && object_slot_match act obj) = true
          · have hm : object_matches act obj = true := by
              simp [object_matches, classifier_skips, had, hro, hv, hs]
            simp only [had, hro, hv, hs, if_true, if_false, Bool.false_eq_true]
            rw [ih, List.filter_cons]
            simp [hm, List.append_assoc]
          · have hm : object_matches act obj = false := by
              simp only [object_matches, classifier_skips, had]
              rw [Bool.not_eq_true] at hv
              rw [Bool.not_eq_true] at hs
              simp [hro, hv, hs]
            simp only [had, hro, hv, hs, if_false, Bool.false_eq_true]
            rw [ih, List.filter_cons]
            simp [hm]

theorem compat_snd_eq (act : Action) (ctx : List AObject)
    (hne : ¬ act.fcurves.isEmpty = true) :
    (is_action_compatible_with_export (some act) ctx).2
      = (ctx.filter (object_matches act)).map (fun o => o.name) := by
  simp only [is_action_compatible_with_export]
  rw [if_neg hne]
  cases ctx with
  | nil => rfl
  | cons obj ctx =>
    rw [if_neg (by simp)]
    exact (compat_fold_eq act (obj :: ctx) []).trans (List.nil_append _)

/-- Claim C2 (amended): classifying against an empty candidate set returns
`(false, [])` only for clips with at least one curve; a clip that is absent
or has zero curves hits the empty-clip shortcut first and returns
`(true, [])` even on an empty candidate set.  The theorem gives the full
behaviour on an empty candidate set. -/
theorem c2_empty_candidates (action : Option Action) :
    is_action_compatible_with_export action []
      = (if (action.map (fun a => a.fcurves.isEmpty)).getD true then (true, [])
         else (false, [])) := by
  cases action with
  | none => rfl
  | some a =>
    by_cases he : a.fcurves.isEmpty <;>
      simp [is_action_compatible_with_export, he]

/-- Counterexample to C2 as stated: a clip with zero curves classified
against the empty candidate set yields `(true, [])`, not `(false, [])` —
the empty-clip shortcut precedes the empty-candidate shortcut. -/
theorem c2_counterexample :
    is_action_compatible_with_export (some ⟨[], []⟩) [] = (true, [])
    ∧ ¬ is_action_compatible_with_export (some ⟨[], []⟩) [] = (false, []) := by
  constructor
  · rfl
  · decide

/-- Claim C6: a clip with zero curves (or an absent clip) classified against
any non-empty candidate set returns `(true, [])`: reported compatible, with
an empty match set, regardless of the candidates. -/
theorem c6_empty_clip_compatible (action : Option Action) (ctx : List AObject)
    (h1 : ¬ ctx = [])
    (h2 : (action.map (fun a => a.fcurves)).getD [] = []) :
    is_action_compatible_with_export action ctx = (true, []) := by
  cases action with
  | none => rfl
  | some a =>
    have he : a.fcurves = [] := by simpa using h2
    simp [is_action_compatible_with_export, he]

/-- Witness for C6: a concrete zero-curve clip and a concrete one-object
candidate set. -/
theorem c6_witness :
    is_action_compatible_with_export (some ⟨[], []⟩)
      [⟨"Cube", "MESH", ["location"], none, some ⟨false⟩⟩] = (true, []) :=
  c6_empty_clip_compatible (some ⟨[], []⟩)
    [⟨"Cube", "MESH", ["location"], none, some ⟨false⟩⟩] (by decide) (by decide)

end anim

namespace anim

/-- Claim C7: a candidate object without animation-binding capability, or
whose active-clip binding is locked read-only, never appears in the match
set, for every clip (names are assumed distinct, as in a host scene). -/
theorem c7_skipped_never_matches (action : Option Action) (ctx : List AObject)
    (obj : AObject) (hmem : obj ∈ ctx)
    (hnodup : (ctx.map (fun o => o.name)).Nodup)
    (hskip : classifier_skips obj = true) :
    ¬ obj.name ∈ (is_action_compatible_with_export action ctx).2 := by
  cases action with
  | none => simp [is_action_compatible_with_export]
  | some act =>
    by_cases he : act.fcurves.isEmpty
    · simp [is_action_compatible_with_export, he]
    · rw [compat_snd_eq act ctx he]
      intro hname
      obtain ⟨o2, ho2, hno2⟩ := List.mem_map.1 hname
      have ho2mem : o2 ∈ ctx := (List.mem_filter.1 ho2).1
      have ho2match : object_matches act o2 = true := (List.mem_filter.1 ho2).2
      have hoeq : o2 = obj :=
        List.inj_on_of_nodup_map hnodup ho2mem hmem hno2
      rw [hoeq] at ho2match
      rw [object_matches, hskip] at ho2match
      simp at ho2match

/-- Witness for C7: a locked candidate (read-only binding) in a two-object
set whose curves would resolve against it. -/
theorem c7_witness :
    ¬ ("Locked" : String) ∈ (is_action_compatible_with_export
        (some ⟨[⟨"location", 0⟩], []⟩)
        [⟨"Locked", "MESH", ["location"], none, some ⟨true⟩⟩,
         ⟨"Free", "MESH", ["location"], none, some ⟨false⟩⟩]).2 := by
  have h := c7_skipped_never_matches (some ⟨[⟨"location", 0⟩], []⟩)
    [⟨"Locked", "MESH", ["location"], none, some ⟨true⟩⟩,
     ⟨"Free", "MESH", ["location"], none, some ⟨false⟩⟩]
    ⟨"Locked", "MESH", ["location"], none, some ⟨true⟩⟩
    (by decide) (by decide) (by decide)
  exact h

/-- Claim C9: when a clip has curves and slots but gathering the curves of
some slot yields the empty list (including a swallowed channelbag failure),
slot validation accepts every object for that slot regardless of its
target-type tag, so every candidate that is not skipped for missing or
locked animation binding is recorded as a match. -/
theorem c9_empty_slot_curves_match_all (act : Action) (ctx : List AObject)
    (obj : AObject) (i : Nat)
    (hfc : ¬ act.fcurves = []) (hslots : ¬ act.slots = [])
    (hi : i < act.slots.length) (hempty : get_fcurves_for_slot act i = [])
    (hmem : obj ∈ ctx) (hskip : classifier_skips obj = false) :
    (∀ (o : AObject) (t : String),
      validate_fcurves_for_object (get_fcurves_for_slot act i) o t = true)
    ∧ obj.name ∈ (is_action_compatible_with_export (some act) ctx).2 := by
  constructor
  · intro o t
    rw [hempty]
    rfl
  · have hne : ¬ act.fcurves.isEmpty = true := by
      cases hfcs : act.fcurves with
      | nil => exact absurd hfcs hfc
      | cons fc fcs => simp
    rw [compat_snd_eq act ctx hne]
    refine List.mem_map.2 ⟨obj, List.mem_filter.2 ⟨hmem, ?_⟩, rfl⟩
    have hosm : object_slot_match act obj = true := by
      unfold object_slot_match
      rw [List.any_eq_true]
      exact ⟨i, List.mem_range.2 hi, by rw [hempty]; rfl⟩
    have hse : act.slots.isEmpty = false := by
      cases hsl : act.slots with
      | nil => exact absurd hsl hslots
      | cons sl sls => rfl
    simp [object_matches, hskip, hosm, hse]

/-- Witness for C9: a clip with one curve and one slot whose channelbag
lookup failed, and an unskipped candidate that the curve path would not
resolve against — the candidate is still matched through the empty slot. -/
theorem c9_witness :
    ((∀ (o : AObject) (t : String),
      validate_fcurves_for_object
        (get_fcurves_for_slot ⟨[⟨"location", 0⟩], [⟨"KEY", none⟩]⟩ 0) o t = true)
    ∧ ("Plain" : String) ∈ (is_action_compatible_with_export
        (some ⟨[⟨"location", 0⟩], [⟨"KEY", none⟩]⟩)
        [⟨"Plain", "EMPTY", [], none, some ⟨false⟩⟩]).2) :=
  c9_empty_slot_curves_match_all ⟨[⟨"location", 0⟩], [⟨"KEY", none⟩]⟩
    [⟨"Plain", "EMPTY", [], none, some ⟨false⟩⟩]
    ⟨"Plain", "EMPTY", [], none, some ⟨false⟩⟩ 0
    (by decide) (by decide) (by decide) (by decide) (by decide) (by decide)

/-- Claim C10: the direct-resolution path gets `"[i]"` appended exactly when
the curve's array index `i` is nonzero; a curve with array index `0` is
resolved through its bare base path, so it validates iff the base path
itself resolves. -/
theorem c10_full_path_array_index (fc : FCurve) (resolve : String → Bool)
    (sl : List Slot) :
    (¬ fc.array_index = 0 →
      fcurve_full_path fc = fc.data_path ++ "[" ++ toString fc.array_index ++ "]")
    ∧ (fc.array_index = 0 →
      fcurve_full_path fc = fc.data_path
      ∧ validate_actions (some ⟨[fc], sl⟩) resolve = resolve fc.data_path) := by
  constructor
  · intro h
    simp [fcurve_full_path, h]
  · intro h
    constructor
    · simp [fcurve_full_path, h]
    · simp [validate_actions, fcurve_full_path, h]

/-- Witness for C10: a curve with index 2 gets the suffix, a curve with
index 0 resolves its bare path. -/
theorem c10_witness :
    (fcurve_full_path ⟨"location", 2⟩
        = "location" ++ "[" ++ toString (2 : Nat) ++ "]")
    ∧ (fcurve_full_path ⟨"location", 0⟩ = "location"
      ∧ validate_actions (some ⟨[⟨"location", 0⟩], []⟩) (fun p => p == "rotation")
          = ((fun p => p == "rotation") "location")) :=
  ⟨(c10_full_path_array_index ⟨"location", 2⟩ (fun p => p == "rotation") []).1
      (by decide),
    (c10_full_path_array_index ⟨"location", 0⟩ (fun p => p == "rotation") []).2 rfl⟩

end anim

namespace anim

/-- Slot assignment of an Animation Group: the optional assigned object,
modelled by its name (the code only ever reads `assigned_object.name`). -/
structure SlotAssignment where
  assigned_object : Option String
deriving Repr, DecidableEq

/-- Animation Group of the Action Binder extension: a name, the designated
clip (only its presence and, abstractly, its content matter), and the slot
assignments. -/
structure AnimGroup where
  name : String
  action : Option Action
  slot_assignments : List SlotAssignment
deriving Repr, DecidableEq

/-- Scene-level `animation_groups_data` of the grouping extension. -/
structure GroupsData where
  groups : List AnimGroup
deriving Repr, DecidableEq

/-- Names of the group's assigned objects (`assignment.assigned_object`
collected when truthy). -/
def group_assigned_object_names (g : AnimGroup) : List String :=
  g.slot_assignments.filterMap (fun asg => asg.assigned_object)

/-- Function `is_animation_group_compatible_with_export`: `false` when the
grouping extension or its data is absent (the `Option` input), when no group
carries the requested name, when the found group has no designated clip,
when the export candidate set is empty, or when the group has no assigned
objects; otherwise `true` iff some assigned object name is among the export
candidates' names (the set-intersection test). -/
def is_animation_group_compatible_with_export (groups_data : Option GroupsData)
    (ctx_objects : List AObject) (group_name : String) : Bool :=
  match groups_data with
  | none => false
  | some gd =>
    match gd.groups.find? (fun g => g.name == group_name) with
    | none => false
    | some target_group =>
      if target_group.action.isNone then false
      else if ctx_objects.isEmpty then false
      else
        let assigned_object_names := group_assigned_object_names target_group
        if assigned_object_names.isEmpty then false
        else assigned_object_names.any (fun n =>
          (ctx_objects.map (fun o => o.name)).contains n)

/-- Claim C8: the group-compatibility check reports a named group compatible
iff the group is found, has a designated clip, and the intersection of its
assigned objects' names with the export candidates' names is non-empty; and
it never revalidates curve paths — its result is invariant under replacing
every group's clip content. -/
theorem c8_group_compatibility (gd : GroupsData) (ctx : List AObject)
    (gname : String) :
    (is_animation_group_compatible_with_export (some gd) ctx gname = true ↔
      ∃ g, gd.groups.find? (fun g' => g'.name == gname) = some g
        ∧ g.action.isSome = true
        ∧ ∃ n ∈ group_assigned_object_names g, n ∈ ctx.map (fun o => o.name))
    ∧ (∀ f : Action → Action,
        is_animation_group_compatible_with_export
          (some ⟨gd.groups.map (fun g => { g with action := g.action.map f })⟩)
          ctx gname
        = is_animation_group_compatible_with_export (some gd) ctx gname) := by
  constructor
  · simp only [is_animation_group_compatible_with_export]
    cases hfind : gd.groups.find? (fun g' => g'.name == gname) with
    | none => simp
    | some g =>
      by_cases hact : g.action.isNone
      · have hnone : g.action = none := by
          cases hao : g.action
          · rfl
          · rw [hao] at hact
            simp at hact
        simp [hact, hnone]
      · have hsome : g.action.isSome = true := by
          cases hao : g.action
          · rw [hao] at hact
            exact absurd rfl hact
          · rfl
        show (if g.action.isNone = true then false
          else if ctx.isEmpty = true then false
          else if (group_assigned_object_names g).isEmpty = true then false
          else (group_assigned_object_names g).any (fun n =>
            (ctx.map (fun o => o.name)).contains n)) = true ↔ _
        rw [if_neg hact]
        by_cases hctx : ctx.isEmpty
        · have hctxnil : ctx = [] := by
            cases ctx
            · rfl
            · simp at hctx
          rw [if_pos hctx]
          simp [hctxnil, hsome]
        · rw [if_neg hctx]
          by_cases hasg : (group_assigned_object_names g).isEmpty
          · have hasgnil : group_assigned_object_names g = [] := by
              cases hl : group_assigned_object_names g
              · rfl
              · rw [hl] at hasg
                simp at hasg
            show (if (group_assigned_object_names g).isEmpty = true then false
              else (group_assigned_object_names g).any (fun n =>
                (ctx.map (fun o => o.name)).contains n)) = true ↔ _
            rw [if_pos hasg]
            simp [hasgnil, hsome]
          · show (if (group_assigned_object_names g).isEmpty = true then false
              else (group_assigned_object_names g).any (fun n =>
                (ctx.map (fun o => o.name)).contains n)) = true ↔ _
            rw [if_neg hasg]
            simp [List.any_eq_true, hsome]
  · intro f
    have hfindmap : (gd.groups.map (fun g => { g with action := g.action.map f })).find?
          (fun g' => g'.name == gname)
        = (gd.groups.find? (fun g' => g'.name == gname)).map
            (fun g => { g with action := g.action.map f }) := by
      rw [List.find?_map]
      rfl
    simp only [is_animation_group_compatible_with_export]
    rw [hfindmap]
    cases hfind : gd.groups.find? (fun g' => g'.name == gname) with
    | none => rfl
    | some g =>
      have h1 : (g.action.map f).isNone = g.action.isNone := by
        cases g.action <;> rfl
      show (if (g.action.map f).isNone = true then false else _) = _
      rw [h1]
      rfl

end anim
